import Mathlib

/-!
Verification development for the ASEA `global-config` module
(`reference-artifacts/Custom-Scripts/lza-upgrade/src/config/global-config.ts`).

The TypeScript source is shallowly embedded: pure computations become Lean
functions, JavaScript runtime behaviours (substring `indexOf`, character
indexing returning `undefined`, `Number` coercion, object-spread merge,
dictionary assignment) are modelled explicitly, and the stateful reconciler
methods become functions over explicit environment/state records.  Fallible
paths return `Except`/`Option`.
-/

set_option autoImplicit false

namespace AseaGlobalConfig

/-! ## JavaScript string primitives -/

/-- JS `String.prototype.indexOf`: index of the first occurrence of `pat`
in `s`, or `-1` when `pat` does not occur. -/
def jsIndexOf (s pat : String) : Int :=
  match (List.range (s.length + 1)).find? (fun i => (s.drop i).take pat.length == pat) with
  | some i => (i : Int)
  | none => -1

/-- JS `String.prototype.includes`. -/
def jsIncludes (s pat : String) : Bool :=
  decide (0 ≤ jsIndexOf s pat)

/-- JS character indexing `s[i]`: `undefined` (here `none`) when out of range
or negative. -/
def jsCharAt (s : String) (i : Int) : Option Char :=
  if i < 0 then none else s.toList.get? i.toNat

/-- JS `Number(c)` on a one-character string: a digit maps to its value,
whitespace maps to `0`, anything else is `NaN` (here `none`). -/
def jsNumberOfChar (c : Char) : Option Int :=
  if c.isDigit then some ((c.toNat - 48 : Nat) : Int)
  else if c = ' ' ∨ c = '\t' ∨ c = '\n' ∨ c = '\r' then some 0
  else none

/-! ## JS object-as-dictionary model

A JS plain object used as a string-keyed dictionary is modelled as an
association list in insertion order; assignment to an existing key replaces
the value in place, assignment to a fresh key appends. -/

/-- Lookup of a key in a JS-object-as-dictionary. -/
def lookupEntry {α : Type} : List (String × α) → String → Option α
  | [], _ => none
  | (k', v) :: rest, k => if k' = k then some v else lookupEntry rest k

/-- JS assignment `obj[k] = v`: replace in place or append. -/
def setEntry {α : Type} : List (String × α) → String → α → List (String × α)
  | [], k, v => [(k, v)]
  | (k', v') :: rest, k, v =>
    if k' = k then (k', v) :: rest else (k', v') :: setEntry rest k v

/-- A JS `{ [key: string]: string }` dictionary. -/
abbrev StrMap := List (String × String)

/-- Sequential assignments `m[k] = v` for each entry; also models the object
spread `\x7b...m, ...entries\x7d` merge (later entries win). -/
def applyEntries (m : StrMap) (es : List (String × String)) : StrMap :=
  es.foldl (fun acc e => setEntry acc e.1 e.2) m

/-- The value of the last entry of `es` carrying key `k`, if any. -/
def lookupLast (es : List (String × String)) (k : String) : Option String :=
  match es with
  | [] => none
  | (k', v) :: rest =>
    match lookupLast rest k with
    | some w => some w
    | none => if k' = k then some v else none

/-! ## SSM parameter-store pagination (`getParametersByPath`) -/

/-- One result page of a `GetParametersByPath` call. -/
structure SsmPage where
  Parameters : List (String × String)
  NextToken : Option String
  deriving Repr, DecidableEq

/-- JS truthiness of the `NextToken` loop guard (`undefined` and the empty
string are falsy). -/
def jsTruthyToken : Option String → Bool
  | none => false
  | some s => s != ""

/-- The `do/while (nextToken)` loop body of `GlobalConfig.getParametersByPath`:
consume pages in order, assigning `parameters[name] = value` for each
parameter, continuing while the page's `NextToken` is truthy. -/
def paginateParams : List SsmPage → StrMap → StrMap
  | [], m => m
  | p :: rest, m =>
    let m' := applyEntries m p.Parameters
    if jsTruthyToken p.NextToken then paginateParams rest m' else m'

/-- `GlobalConfig.getParametersByPath`, over the sequence of pages the
parameter store returns for the queried path. -/
def getParametersByPath (pages : List SsmPage) : StrMap :=
  paginateParams pages []

/-- The page sequence is well-formed for the do/while loop: the list is
nonempty, every non-final page has a truthy `NextToken`, and the final page
does not. -/
def chainOk : List SsmPage → Bool
  | [] => false
  | [p] => !jsTruthyToken p.NextToken
  | p :: q :: rest => jsTruthyToken p.NextToken && chainOk (q :: rest)

/-! ## External mapping manifest and `setTemplateMap` -/

/-- Modelled from the spec: `t.CfnResourceType` lives in `common-types`
(not part of the sources here); `setTemplateMap` reads exactly the
`resourceType` and `physicalResourceId` fields of each resource record. -/
structure CfnResourceType where
  logicalResourceId : String
  physicalResourceId : String
  resourceType : String
  deriving Repr, DecidableEq

/-- One entry of an account's `stacksAndResourceMapList` in `mapping.json`
(shape per spec §6). -/
structure MappingStack where
  stackName : String
  region : String
  template : String
  resourceMap : List CfnResourceType
  parentStack : Option String
  deriving Repr, DecidableEq

/-- One per-account entry of `mapping.json` (shape per spec §6). -/
structure MappingAccount where
  accountId : String
  accountKey : String
  stacksAndResourceMapList : List MappingStack
  deriving Repr, DecidableEq

/-- Modelled from the spec: `t.AseaStackInfo` lives in `common-types`; its
fields are exactly those populated by `setTemplateMap`.  The `phase` is
`none` when the JS computation produces `NaN`. -/
structure AseaStackInfo where
  accountId : String
  accountKey : String
  region : String
  stackName : String
  resources : List CfnResourceType
  templatePath : String
  phase : Option Int
  nestedStack : Bool
  deriving Repr, DecidableEq

/-- Phase derivation of `setTemplateMap`:
`phaseIdentifierIndex = stackName.indexOf('Phase') + 5`, read the character
there, map `'-'` to `-1`, then apply `Number(...)`. -/
def derivePhase (stackName : String) : Option Int :=
  let phaseIdentifierIndex : Int := jsIndexOf stackName "Phase" + 5
  match jsCharAt stackName phaseIdentifierIndex with
  | none => none
  | some c => if c = '-' then some (-1) else jsNumberOfChar c

/-- The stack descriptor pushed for one mapping stack.  The random
`mkdtemp` temporary directory is abstracted to the fixed prefix
`asea-templates-`. -/
def processStack (accountId accountKey : String) (stack : MappingStack) : AseaStackInfo :=
  { accountId := accountId
    accountKey := accountKey
    region := stack.region
    stackName := stack.stackName
    resources := stack.resourceMap
    templatePath := "asea-templates-/" ++ stack.stackName ++ ".json"
    phase := derivePhase stack.stackName
    nestedStack := stack.parentStack.isSome }

/-- The `nestedStackPhysicalIds` collected while looping over an account's
stackList: physical ids of resources of type `AWS::CloudFormation::Stack`,
in loop order. -/
def collectNestedIds (stackList : List MappingStack) : List String :=
  (stackList.map (fun st =>
    (st.resourceMap.filter (fun r => r.resourceType == "AWS::CloudFormation::Stack")).map
      (fun r => r.physicalResourceId))).flatten

/-- The predicate of the nested-stack marking pass:
`physicalId.includes(':stack/' + stack.stackName + '/')`. -/
def matchesNested (physicalId : String) (st : AseaStackInfo) : Bool :=
  jsIncludes physicalId (":stack/" ++ st.stackName ++ "/")

/-- JS `Array.prototype.findIndex` (as an `Option`al index; the TS code
compares the result against `-1`). -/
def jsFindIndex (p : AseaStackInfo → Bool) : List AseaStackInfo → Option Nat
  | [] => none
  | st :: rest => if p st then some 0 else (jsFindIndex p rest).map (· + 1)

/-- Set `nestedStack := true` on the element at index `i`. -/
def setTrueAt : List AseaStackInfo → Nat → List AseaStackInfo
  | [], _ => []
  | st :: rest, 0 => { st with nestedStack := true } :: rest
  | st :: rest, Nat.succ n => st :: setTrueAt rest n

/-- One iteration of the marking loop: `findIndex` over the accumulated
stack list, marking the single first match (if any) as nested. -/
def markStep (acc : List AseaStackInfo) (pid : String) : List AseaStackInfo :=
  match jsFindIndex (fun st => matchesNested pid st) acc with
  | some i => setTrueAt acc i
  | none => acc

/-- The marking pass after an account's stacks are processed: one
`markStep` per collected physical id. -/
def markNested (stackList : List AseaStackInfo) (physicalIds : List String) : List AseaStackInfo :=
  physicalIds.foldl markStep stackList

/-- Descriptors pushed for one account, in loop order. -/
def processAccount (account : MappingAccount) : List AseaStackInfo :=
  account.stacksAndResourceMapList.map (processStack account.accountId account.accountKey)

/-- The per-account loop of `setTemplateMap`, threading the
`accountsDeployedExternally` pushes and the accumulated `aseaStacks` list. -/
def setTemplateMapGo : List MappingAccount → List String × List AseaStackInfo →
    List String × List AseaStackInfo
  | [], acc => acc
  | account :: rest, (accts, stackList) =>
    let allStacks := stackList ++ processAccount account
    let ids := collectNestedIds account.stacksAndResourceMapList
    setTemplateMapGo rest (accts ++ [account.accountId], markNested allStacks ids)

/-- `GlobalConfig.setTemplateMap`: returns the account ids pushed onto
`accountsDeployedExternally` and the final `aseaStacks` list. -/
def setTemplateMap (mappingJson : List MappingAccount) : List String × List AseaStackInfo :=
  setTemplateMapGo mappingJson ([], [])

/-! ## Configuration value types

One structure per schema section.  A `t.optional` schema field becomes an
`Option`; the modelled parser (see `parse` below) omits absent keys, so
`none` stands for "key absent", matching spec §4.2's rule that a
present-but-undefined value is treated like an absent key. -/

/-- Modelled from the spec: `t.deploymentTargets` lives in `common-types`;
spec §3 describes it as organizational units + account names + exclusion
lists. -/
structure DeploymentTargets where
  organizationalUnits : List String := []
  accounts : List String := []
  excludedRegions : List String := []
  excludedAccounts : List String := []
  deriving Repr, DecidableEq

/-- Modelled from the spec: `t.tag` lives in `common-types`; a key/value
pair. -/
structure Tag where
  key : String
  value : String
  deriving Repr, DecidableEq

/-- Modelled from the spec: `t.lifecycleRuleConfig` lives in `common-types`;
spec §3 describes storage class, day offsets and expiration flags. -/
structure LifecycleRule where
  storageClass : String := ""
  transitionAfterDays : Int := 0
  expirationDays : Int := 0
  expiredObjectDeleteMarker : Bool := false
  deriving Repr, DecidableEq

/-- Modelled from the spec: `t.resourcePolicyStatement` lives in
`common-types`; carried opaquely here. -/
structure ResourcePolicyStatement where
  policy : String
  deriving Repr, DecidableEq

/-- Modelled from the spec: the imported-bucket configs of `common-types`;
carried opaquely here. -/
structure ImportedBucketConfig where
  name : String
  deriving Repr, DecidableEq

/-- Modelled from the spec: the custom-policy-overrides configs of
`common-types`; carried opaquely here. -/
structure CustomPolicyOverridesConfig where
  policy : String
  deriving Repr, DecidableEq

structure ControlTowerControlVal where
  identifier : String
  enable : Bool
  deploymentTargets : DeploymentTargets
  deriving Repr, DecidableEq

structure ControlTowerVal where
  enable : Bool
  controls : Option (List ControlTowerControlVal)
  deriving Repr, DecidableEq

structure CloudTrailSettingsVal where
  multiRegionTrail : Bool
  globalServiceEvents : Bool
  managementEvents : Bool
  s3DataEvents : Bool
  lambdaDataEvents : Bool
  sendToCloudWatchLogs : Bool
  apiErrorRateInsight : Bool
  apiCallRateInsight : Bool
  deriving Repr, DecidableEq

structure AccountCloudTrailVal where
  name : String
  regions : List String
  deploymentTargets : DeploymentTargets
  settings : CloudTrailSettingsVal
  deriving Repr, DecidableEq

structure CloudTrailVal where
  enable : Bool
  organizationTrail : Bool
  organizationTrailSettings : Option CloudTrailSettingsVal
  accountTrails : Option (List AccountCloudTrailVal)
  lifecycleRules : Option (List LifecycleRule)
  deriving Repr, DecidableEq

structure SessionManagerVal where
  sendToCloudWatchLogs : Bool
  sendToS3 : Bool
  excludeRegions : Option (List String)
  excludeAccounts : Option (List String)
  lifecycleRules : Option (List LifecycleRule)
  attachPolicyToIamRoles : Option (List String)
  deriving Repr, DecidableEq

structure AccessLogBucketVal where
  lifecycleRules : Option (List LifecycleRule)
  s3ResourcePolicyAttachments : Option (List ResourcePolicyStatement)
  importedBucket : Option ImportedBucketConfig
  customPolicyOverrides : Option CustomPolicyOverridesConfig
  deriving Repr, DecidableEq

structure CentralLogBucketVal where
  lifecycleRules : Option (List LifecycleRule)
  s3ResourcePolicyAttachments : Option (List ResourcePolicyStatement)
  kmsResourcePolicyAttachments : Option (List ResourcePolicyStatement)
  importedBucket : Option ImportedBucketConfig
  customPolicyOverrides : Option CustomPolicyOverridesConfig
  deriving Repr, DecidableEq

structure ElbLogBucketVal where
  lifecycleRules : Option (List LifecycleRule)
  s3ResourcePolicyAttachments : Option (List ResourcePolicyStatement)
  importedBucket : Option ImportedBucketConfig
  customPolicyOverrides : Option CustomPolicyOverridesConfig
  deriving Repr, DecidableEq

structure CloudWatchLogsExclusionVal where
  organizationalUnits : Option (List String)
  regions : Option (List String)
  accounts : Option (List String)
  excludeAll : Option Bool
  logGroupNames : Option (List String)
  deriving Repr, DecidableEq

structure CloudWatchLogsVal where
  dynamicPartitioning : Option String
  enable : Option Bool
  exclusions : Option (List CloudWatchLogsExclusionVal)
  replaceLogDestinationArn : Option String
  deriving Repr, DecidableEq

structure LoggingVal where
  account : String
  centralizedLoggingRegion : Option String
  cloudtrail : CloudTrailVal
  sessionManager : SessionManagerVal
  accessLogBucket : Option AccessLogBucketVal
  centralLogBucket : Option CentralLogBucketVal
  elbLogBucket : Option ElbLogBucketVal
  cloudwatchLogs : Option CloudWatchLogsVal
  deriving Repr, DecidableEq

structure NotificationVal where
  type : String
  thresholdType : String
  comparisonOperator : String
  threshold : Option Int
  address : Option String
  subscriptionType : String
  deriving Repr, DecidableEq

structure BudgetVal where
  amount : Int
  name : String
  type : String
  timeUnit : String
  includeUpfront : Option Bool
  includeTax : Option Bool
  includeSupport : Option Bool
  includeSubscription : Option Bool
  includeRecurring : Option Bool
  includeOtherSubscription : Option Bool
  includeCredit : Option Bool
  includeDiscount : Option Bool
  includeRefund : Option Bool
  useAmortized : Option Bool
  useBlended : Option Bool
  unit : Option String
  notifications : Option (List NotificationVal)
  deploymentTargets : Option DeploymentTargets
  deriving Repr, DecidableEq

structure CostAndUsageReportVal where
  additionalSchemaElements : Option (List String)
  compression : String
  format : String
  reportName : String
  s3Prefix : String
  timeUnit : String
  additionalArtifacts : Option (List String)
  refreshClosedReports : Bool
  reportVersioning : String
  lifecycleRules : Option (List LifecycleRule)
  deriving Repr, DecidableEq

structure ReportVal where
  costAndUsageReport : Option CostAndUsageReportVal
  budgets : Option (List BudgetVal)
  deriving Repr, DecidableEq

structure VaultVal where
  name : String
  deploymentTargets : DeploymentTargets
  policy : Option String
  deriving Repr, DecidableEq

structure BackupVal where
  vaults : List VaultVal
  deriving Repr, DecidableEq

structure SnsTopicVal where
  name : String
  emailAddresses : List String
  deriving Repr, DecidableEq

structure SnsVal where
  deploymentTargets : Option DeploymentTargets
  topics : Option (List SnsTopicVal)
  deriving Repr, DecidableEq

structure SsmInventoryVal where
  enable : Bool
  deploymentTargets : DeploymentTargets
  deriving Repr, DecidableEq

structure SsmParameterVal where
  name : String
  path : String
  value : String
  deriving Repr, DecidableEq

structure SsmParametersVal where
  parameters : List SsmParameterVal
  deploymentTargets : DeploymentTargets
  deriving Repr, DecidableEq

structure ServiceQuotaLimitsVal where
  serviceCode : String
  quotaCode : String
  desiredValue : Int
  deploymentTargets : DeploymentTargets
  deriving Repr, DecidableEq

structure AcceleratorMetadataVal where
  enable : Bool
  account : String
  readOnlyAccessRoleArns : Option (List String)
  deriving Repr, DecidableEq

structure AcceleratorSettingsVal where
  maxConcurrentStacks : Option Int
  deriving Repr, DecidableEq

structure CentralizeCdkBucketsVal where
  enable : Bool
  deriving Repr, DecidableEq

structure CdkOptionsVal where
  centralizeBuckets : Bool
  useManagementAccessRole : Bool
  customDeploymentRole : Option String
  forceBootstrap : Option Bool
  deriving Repr, DecidableEq

/-- The `externalLandingZoneResourcesConfig` schema section of the parsed
document. -/
structure ElzVal where
  importExternalLandingZoneResources : Bool
  mappingFileBucket : Option String
  acceleratorPrefix : String
  acceleratorName : String
  deriving Repr, DecidableEq

/-- Modelled from the spec: `t.AseaResourceMapping` lives in `common-types`;
spec §6 describes `aseaResources.json` as a flat array of resource-mapping
records, carried opaquely here. -/
structure AseaResourceMapping where
  resourceType : String
  resourceIdentifier : String
  deriving Repr, DecidableEq

/-- The runtime `externalLandingZoneResources` object: the parsed config
section plus the mutable reconciler state the methods attach to it
(spec §3, "External Landing Zone Resource State"). -/
structure ElzResources where
  importExternalLandingZoneResources : Bool
  mappingFileBucket : Option String
  acceleratorPrefix : String
  acceleratorName : String
  accountsDeployedExternally : List String := []
  templateMap : List AseaStackInfo := []
  resourceList : List AseaResourceMapping := []
  resourceParameters : Option (List (String × StrMap)) := none
  deriving Repr, DecidableEq

/-- The parsed config section, as stored on a freshly constructed config
object (reconciler state still at its initial values). -/
def ElzVal.toResources (v : ElzVal) : ElzResources :=
  { importExternalLandingZoneResources := v.importExternalLandingZoneResources
    mappingFileBucket := v.mappingFileBucket
    acceleratorPrefix := v.acceleratorPrefix
    acceleratorName := v.acceleratorName }

/-- `t.TypeOf<typeof GlobalConfigTypes.globalConfig>`: the shape of a parsed
valid document. -/
structure GCValues where
  homeRegion : String
  enabledRegions : List String
  managementAccountAccessRole : String
  cloudwatchLogRetentionInDays : Int
  terminationProtection : Option Bool
  controlTower : ControlTowerVal
  centralizeCdkBuckets : Option CentralizeCdkBucketsVal
  cdkOptions : Option CdkOptionsVal
  externalLandingZoneResources : Option ElzVal
  logging : LoggingVal
  reports : Option ReportVal
  backup : Option BackupVal
  snsTopics : Option SnsVal
  ssmInventory : Option SsmInventoryVal
  tags : Option (List Tag)
  ssmParameters : Option (List SsmParametersVal)
  limits : Option (List ServiceQuotaLimitsVal)
  acceleratorMetadata : Option AcceleratorMetadataVal
  acceleratorSettings : Option AcceleratorSettingsVal
  deriving Repr, DecidableEq

/-! ## The `GlobalConfig` class -/

/-- The in-memory `GlobalConfig` object.  Fields follow the class
declarations; a field the class declares as `T | undefined` is an
`Option`.  `controlTower.controls` is an `Option` because the
`Object.assign` path stores the raw parsed object, whose `controls` key may
be absent. -/
structure GlobalConfig where
  homeRegion : String
  enabledRegions : List String
  managementAccountAccessRole : String
  cloudwatchLogRetentionInDays : Int
  centralizeCdkBuckets : Option CentralizeCdkBucketsVal
  cdkOptions : CdkOptionsVal
  terminationProtection : Bool
  externalLandingZoneResources : Option ElzResources
  controlTower : ControlTowerVal
  logging : LoggingVal
  reports : Option ReportVal
  limits : Option (List ServiceQuotaLimitsVal)
  ssmParameters : Option (List SsmParametersVal)
  backup : Option BackupVal
  snsTopics : Option SnsVal
  ssmInventory : Option SsmInventoryVal
  tags : List Tag
  acceleratorMetadata : Option AcceleratorMetadataVal
  acceleratorSettings : Option AcceleratorSettingsVal
  deriving Repr, DecidableEq

/-- `new CloudTrailSettingsConfig()`. -/
def defaultCloudTrailSettings : CloudTrailSettingsVal :=
  { multiRegionTrail := true
    globalServiceEvents := true
    managementEvents := true
    s3DataEvents := true
    lambdaDataEvents := true
    sendToCloudWatchLogs := true
    apiErrorRateInsight := false
    apiCallRateInsight := false }

/-- `new CloudTrailConfig()`. -/
def defaultCloudTrail : CloudTrailVal :=
  { enable := false
    organizationTrail := false
    organizationTrailSettings := some defaultCloudTrailSettings
    accountTrails := some []
    lifecycleRules := some [] }

/-- `new SessionManagerConfig()`. -/
def defaultSessionManager : SessionManagerVal :=
  { sendToCloudWatchLogs := false
    sendToS3 := false
    excludeRegions := some []
    excludeAccounts := some []
    lifecycleRules := some []
    attachPolicyToIamRoles := some [] }

/-- `new LoggingConfig()`. -/
def defaultLogging : LoggingVal :=
  { account := "LogArchive"
    centralizedLoggingRegion := none
    cloudtrail := defaultCloudTrail
    sessionManager := defaultSessionManager
    accessLogBucket := none
    centralLogBucket := none
    elbLogBucket := none
    cloudwatchLogs := none }

/-- `new cdkOptionsConfig()`. -/
def defaultCdkOptions : CdkOptionsVal :=
  { centralizeBuckets := true
    useManagementAccessRole := true
    customDeploymentRole := none
    forceBootstrap := none }

/-- `new ControlTowerConfig()`. -/
def defaultControlTower : ControlTowerVal :=
  { enable := true, controls := some [] }

/-- The field initializers of the `GlobalConfig` class: the state of `this`
before the constructor body runs. -/
def GlobalConfig.classDefault : GlobalConfig :=
  { homeRegion := ""
    enabledRegions := []
    managementAccountAccessRole := ""
    cloudwatchLogRetentionInDays := 3653
    centralizeCdkBuckets := none
    cdkOptions := defaultCdkOptions
    terminationProtection := true
    externalLandingZoneResources := none
    controlTower := defaultControlTower
    logging := defaultLogging
    reports := none
    limits := none
    ssmParameters := none
    backup := none
    snsTopics := none
    ssmInventory := none
    tags := []
    acceleratorMetadata := none
    acceleratorSettings := none }

/-- Key-present overwrite for `Option`-typed class fields. -/
def assignOpt {α : Type} (vfield cfield : Option α) : Option α :=
  match vfield with
  | some x => some x
  | none => cfield

/-- Key-present overwrite for class fields with a non-`undefined` default. -/
def assignD {α : Type} (vfield : Option α) (cfield : α) : α :=
  match vfield with
  | some x => x
  | none => cfield

/-- `Object.assign(this, values)`: every key present in the parsed document
overwrites the corresponding class field; absent keys keep the class
default. -/
def objectAssign (c : GlobalConfig) (v : GCValues) : GlobalConfig :=
  { homeRegion := v.homeRegion
    enabledRegions := v.enabledRegions
    managementAccountAccessRole := v.managementAccountAccessRole
    cloudwatchLogRetentionInDays := v.cloudwatchLogRetentionInDays
    centralizeCdkBuckets := assignOpt v.centralizeCdkBuckets c.centralizeCdkBuckets
    cdkOptions := assignD v.cdkOptions c.cdkOptions
    terminationProtection := assignD v.terminationProtection c.terminationProtection
    externalLandingZoneResources :=
      assignOpt (v.externalLandingZoneResources.map ElzVal.toResources) c.externalLandingZoneResources
    controlTower := v.controlTower
    logging := v.logging
    reports := assignOpt v.reports c.reports
    limits := assignOpt v.limits c.limits
    ssmParameters := assignOpt v.ssmParameters c.ssmParameters
    backup := assignOpt v.backup c.backup
    snsTopics := assignOpt v.snsTopics c.snsTopics
    ssmInventory := assignOpt v.ssmInventory c.ssmInventory
    tags := assignD v.tags c.tags
    acceleratorMetadata := assignOpt v.acceleratorMetadata c.acceleratorMetadata
    acceleratorSettings := assignOpt v.acceleratorSettings c.acceleratorSettings }

/-- The constructor's `props` argument. -/
structure GCProps where
  homeRegion : String
  controlTower : ControlTowerVal
  managementAccountAccessRole : String

/-- The `GlobalConfig` constructor: with a `values` argument it runs
`Object.assign(this, values)`; without one it populates only the four
fields of the `else` branch (with
`controlTower = \x7b ...props.controlTower, controls: [] \x7d`). -/
def constructGlobalConfig (props : GCProps) (values : Option GCValues) : GlobalConfig :=
  match values with
  | some v => objectAssign GlobalConfig.classDefault v
  | none =>
    { GlobalConfig.classDefault with
      homeRegion := props.homeRegion
      enabledRegions := [props.homeRegion]
      controlTower := { enable := props.controlTower.enable, controls := some [] }
      managementAccountAccessRole := props.managementAccountAccessRole }

/-! ## The loaders

`yaml.load` and `t.parse` live outside these sources (`js-yaml` and
`common-types`); modelled from the spec, their composite outcome is an
`Except`: `.ok values` for a valid document (with absent optional keys
normalized away, spec §4.2), `.error` for any parse or validation
failure. -/

/-- `GlobalConfig.load(dir)` after the file read: parse, then construct
with both `props` (built from the parsed values) and `values`.  Parse
failures propagate. -/
def GlobalConfig.load (parsed : Except String GCValues) : Except String GlobalConfig :=
  match parsed with
  | .error e => .error e
  | .ok values =>
    .ok (constructGlobalConfig
      { homeRegion := values.homeRegion
        controlTower := values.controlTower
        managementAccountAccessRole := values.managementAccountAccessRole }
      (some values))

/-- `GlobalConfig.loadFromString(content)`: parse, then construct passing
the parsed values as the `props` argument only; any error is caught and
replaced by the single generic load error. -/
def GlobalConfig.loadFromString (parsed : Except String GCValues) : Except String GlobalConfig :=
  match parsed with
  | .error _ => .error "Could not load global configuration"
  | .ok values =>
    .ok (constructGlobalConfig
      { homeRegion := values.homeRegion
        controlTower := values.controlTower
        managementAccountAccessRole := values.managementAccountAccessRole }
      none)

/-- `GlobalConfig.fromObject(content)`: identical construction to `load`,
from an already-deserialized object graph. -/
def GlobalConfig.fromObject (parsed : Except String GCValues) : Except String GlobalConfig :=
  match parsed with
  | .error e => .error e
  | .ok values =>
    .ok (constructGlobalConfig
      { homeRegion := values.homeRegion
        controlTower := values.controlTower
        managementAccountAccessRole := values.managementAccountAccessRole }
      (some values))

/-! ## External mapping loader (`loadExternalMapping`) -/

/-- Outcome of one S3 `getObject` call, with the body already parsed to `α`:
a present body, a present object with an absent body, a `NoSuchKey`
rejection, or any other rejection. -/
inductive S3GetResult (α : Type) where
  | okBody (v : α)
  | emptyBody
  | noSuchKey
  | otherError (msg : String)
  deriving Repr, DecidableEq

/-- The environment `loadExternalMapping` runs against: the local cache
directory state and the outcome each remote object-storage fetch would
have. -/
structure ExtMappingEnv where
  cacheFileExists : Bool
  diskMapping : List MappingAccount
  diskResourceList : List AseaResourceMapping
  s3Mapping : S3GetResult (List MappingAccount)
  s3ResourceList : S3GetResult (List AseaResourceMapping)

/-- `GlobalConfig.loadExternalMappingFromS3`: guarded on
`importExternalLandingZoneResources` and `mappingFileBucket`, fetches
`mapping.json` (no catch: a `NoSuchKey` rejection propagates), and throws
`Runtime error` on a missing body.  Returns `none` when the guard fails
(the TS function returns `undefined`). -/
def loadExternalMappingFromS3 (e : ElzResources) (r : S3GetResult (List MappingAccount)) :
    Except String (Option (List MappingAccount)) :=
  if e.importExternalLandingZoneResources ∧ e.mappingFileBucket.isSome then
    match r with
    | .okBody m => .ok (some m)
    | .emptyBody => .error "Runtime error"
    | .noSuchKey => .error "NoSuchKey"
    | .otherError msg => .error msg
  else
    .ok none

/-- `GlobalConfig.readJsonFromExternalS3`: throws when the guard fails,
absorbs both a `NoSuchKey` rejection and a missing body into `none`, and
rethrows every other error. -/
def readJsonFromExternalS3 {α : Type} (e : ElzResources) (r : S3GetResult α) :
    Except String (Option α) :=
  if e.importExternalLandingZoneResources ∧ e.mappingFileBucket.isSome then
    match r with
    | .okBody v => .ok (some v)
    | .emptyBody => .ok none
    | .noSuchKey => .ok none
    | .otherError msg => .error msg
  else
    .error "readJsonFromExternalS3 can only be called when importExternalLandingZoneResources set as true and mappingFileBucket is provided"

/-- `GlobalConfig.loadExternalMapping(loadFromCache)` over the explicit
environment.  On success it returns the updated
`externalLandingZoneResources` object together with the list of S3 object
keys fetched (`[]` on the cache path). -/
def loadExternalMapping (elz : Option ElzResources) (loadFromCache : Bool)
    (env : ExtMappingEnv) : Except String (Option ElzResources × List String) :=
  match elz with
  | none => .ok (none, [])
  | some e =>
    if e.importExternalLandingZoneResources then
      let e1 := { e with accountsDeployedExternally := [] }
      if loadFromCache && env.cacheFileExists then
        let r := setTemplateMap env.diskMapping
        .ok (some { e1 with
          accountsDeployedExternally := e1.accountsDeployedExternally ++ r.1
          templateMap := r.2
          resourceList := env.diskResourceList }, [])
      else
        match loadExternalMappingFromS3 e1 env.s3Mapping with
        | .error msg => .error msg
        | .ok none => .error "TypeError: mapping is not iterable"
        | .ok (some mapping) =>
          let r := setTemplateMap mapping
          match readJsonFromExternalS3 e1 env.s3ResourceList with
          | .error msg => .error msg
          | .ok resOpt =>
            .ok (some { e1 with
              accountsDeployedExternally := e1.accountsDeployedExternally ++ r.1
              templateMap := r.2
              resourceList := resOpt.getD [] }, ["mapping.json", "aseaResources.json"])
    else
      .ok (some e, [])

/-! ## Cross-account reconciliation (`loadLzaResources`) -/

/-- Modelled from the spec: the four fixed resource-type path suffixes of
`t.AseaResourceTypePaths` (IAM, VPC, Transit Gateway, VPC Peering); their
exact literals live in `common-types`, only their distinctness matters
here. -/
def aseaResourceTypePaths : List String :=
  ["/iam", "/network/vpc", "/network/transitGateways", "/network/vpcPeering"]

/-- The environment of a reconciliation run: the outcome of each
cross-account role assumption (`none` = success, `some msg` = the
credential error thrown after backoff exhaustion), and the parameter-store
pages each `(accountId, region, path)` query returns. -/
structure LzaEnv where
  credentials : String → String → Option String
  ssmPages : String → String → String → List SsmPage

/-- The four paginated namespace queries of one account/region pair, merged
left to right with object spread (last-seen value wins). -/
def regionAccountParams (env : LzaEnv) (pfx accountId region : String) : StrMap :=
  let results := aseaResourceTypePaths.map (fun rt =>
    getParametersByPath (env.ssmPages accountId region ("/" ++ pfx ++ rt)))
  results.foldl (fun acc m => applyEntries acc m) []

/-- The per-account loop of `GlobalConfig.loadRegionLzaResources`: assume
the cross-account role, query, and commit
`resourceParameters[accountId-region]` immediately; a credential failure
aborts the task, keeping the entries already committed. -/
def loadRegionLzaResources (env : LzaEnv) (pfx region : String) :
    List String → List (String × StrMap) → Option String × List (String × StrMap)
  | [], rp => (none, rp)
  | accountId :: rest, rp =>
    match env.credentials accountId region with
    | some err => (some err, rp)
    | none =>
      let merged := regionAccountParams env pfx accountId region
      loadRegionLzaResources env pfx region rest
        (setEntry rp (accountId ++ "-" ++ region) merged)

/-- `GlobalConfig.loadLzaResources(partition, prefix)`: guard on import,
initialize `resourceParameters`, fan out one task per enabled region and
await them together.  Every task's committed writes survive in the final
state; the first error (if any) is reported.  (Each task writes only keys
ending in its own region, so the final state is the same for every
interleaving of the concurrent tasks.) -/
def loadLzaResources (cfg : GlobalConfig) (env : LzaEnv) (_partition pfx : String) :
    Option String × GlobalConfig :=
  match cfg.externalLandingZoneResources with
  | none => (none, cfg)
  | some e =>
    if e.importExternalLandingZoneResources then
      let rp0 := e.resourceParameters.getD []
      let accounts := e.accountsDeployedExternally
      let res := cfg.enabledRegions.foldl
        (fun (acc : Option String × List (String × StrMap)) region =>
          let r := loadRegionLzaResources env pfx region accounts acc.2
          (match acc.1 with | some m => some m | none => r.1, r.2))
        (none, rp0)
      (res.1, { cfg with
        externalLandingZoneResources := some { e with resourceParameters := some res.2 } })
    else
      (none, cfg)


theorem lookupEntry_setEntry {α : Type} (m : List (String × α)) (k k' : String) (v : α) :
    lookupEntry (setEntry m k v) k' = if k = k' then some v else lookupEntry m k' := by
  induction m with
  | nil =>
    by_cases h : k = k' <;> simp [setEntry, lookupEntry, h]
  | cons hd tl ih =>
    obtain ⟨k0, v0⟩ := hd
    by_cases h0 : k0 = k
    · subst h0
      by_cases h1 : k0 = k' <;> simp [setEntry, lookupEntry, h1]
    · by_cases h1 : k0 = k'
      · subst h1
        have hk : k ≠ k0 := fun h => h0 h.symm
        simp [setEntry, lookupEntry, h0, hk]
      · simp [setEntry, lookupEntry, h0, h1, ih]

theorem applyEntries_cons (m : StrMap) (k : String) (v : String) (es : List (String × String)) :
    applyEntries m ((k, v) :: es) = applyEntries (setEntry m k v) es := rfl

theorem applyEntries_append (m : StrMap) (es1 es2 : List (String × String)) :
    applyEntries m (es1 ++ es2) = applyEntries (applyEntries m es1) es2 := by
  simp [applyEntries, List.foldl_append]

theorem lookupEntry_applyEntries (es : List (String × String)) (m : StrMap) (k : String) :
    lookupEntry (applyEntries m es) k =
      match lookupLast es k with
      | some w => some w
      | none => lookupEntry m k := by
  induction es generalizing m with
  | nil => simp [applyEntries, lookupLast]
  | cons e rest ih =>
    obtain ⟨k0, v0⟩ := e
    rw [applyEntries_cons, ih]
    show _ = (match lookupLast ((k0, v0) :: rest) k with
      | some w => some w
      | none => lookupEntry m k)
    simp only [lookupLast]
    cases h : lookupLast rest k with
    | some w => simp
    | none =>
      simp only []
      rw [lookupEntry_setEntry]
      by_cases h1 : k0 = k <;> simp [h1]

theorem paginateParams_cons (p : SsmPage) (rest : List SsmPage) (m : StrMap) :
    paginateParams (p :: rest) m =
      if jsTruthyToken p.NextToken then paginateParams rest (applyEntries m p.Parameters)
      else applyEntries m p.Parameters := rfl

theorem paginateParams_chainOk (pages : List SsmPage) (m : StrMap) (h : chainOk pages = true) :
    paginateParams pages m = applyEntries m (pages.map SsmPage.Parameters).flatten := by
  induction pages generalizing m with
  | nil => simp [chainOk] at h
  | cons p rest ih =>
    cases rest with
    | nil =>
      simp only [chainOk, Bool.not_eq_true'] at h
      simp [paginateParams_cons, h]
    | cons q rest' =>
      simp only [chainOk, Bool.and_eq_true] at h
      rw [paginateParams_cons, if_pos h.1, ih _ h.2]
      simp [applyEntries_append]

/-- C5: for every well-formed page sequence of a parameter-store namespace
query (every non-final page carries a truthy `NextToken`, the final page
does not), `getParametersByPath` follows the continuation until exhausted
and its result maps each key to the last-seen value among all page entries
(union of the pages, last-seen wins). -/
theorem claim5_paginationMerge (pages : List SsmPage) (h : chainOk pages = true)
    (k : String) :
    lookupEntry (getParametersByPath pages) k =
      lookupLast (pages.map SsmPage.Parameters).flatten k := by
  unfold getParametersByPath
  rw [paginateParams_chainOk pages [] h, lookupEntry_applyEntries]
  cases lookupLast (pages.map SsmPage.Parameters).flatten k <;> simp [lookupEntry]

def pagesSample : List SsmPage :=
  [{ Parameters := [("/a", "1"), ("/b", "1")], NextToken := some "t1" },
   { Parameters := [("/b", "2")], NextToken := some "t2" },
   { Parameters := [("/c", "3")], NextToken := none }]

theorem claim5_paginationMerge_witness :
    chainOk pagesSample = true ∧
    lookupEntry (getParametersByPath pagesSample) "/b" =
      lookupLast (pagesSample.map SsmPage.Parameters).flatten "/b" :=
  ⟨by decide, claim5_paginationMerge pagesSample (by decide) "/b"⟩

def mappingPhases : List MappingAccount :=
  [{ accountId := "111111111111", accountKey := "management",
     stacksAndResourceMapList :=
       [{ stackName := "Phase1-NetworkStack", region := "us-east-1",
          template := "tpl", resourceMap := [], parentStack := none },
        { stackName := "Phase--something", region := "us-east-1",
          template := "tpl", resourceMap := [], parentStack := none }] }]

/-- C4: phase derivation in `setTemplateMap` reads the character following
the substring `Phase` of the stack name: `Phase1-NetworkStack` derives
phase `1`, and `Phase--something` (a `-` after `Phase`) derives `-1`;
the derived phases appear on the stack descriptors. -/
theorem claim4_phaseDerivation :
    derivePhase "Phase1-NetworkStack" = some 1 ∧
    derivePhase "Phase--something" = some (-1) ∧
    (setTemplateMap mappingPhases).2.map AseaStackInfo.phase = [some 1, some (-1)] := by
  refine ⟨by decide, by decide, by decide⟩

/-! ### Lemmas about the nested-stack marking pass -/

def stackNames (l : List AseaStackInfo) : List String :=
  l.map AseaStackInfo.stackName

theorem stackNames_append (l1 l2 : List AseaStackInfo) :
    stackNames (l1 ++ l2) = stackNames l1 ++ stackNames l2 := by
  simp [stackNames]

theorem markNested_cons (l : List AseaStackInfo) (pid : String) (rest : List String) :
    markNested l (pid :: rest) = markNested (markStep l pid) rest := rfl

theorem setTrueAt_length (l : List AseaStackInfo) (i : Nat) :
    (setTrueAt l i).length = l.length := by
  induction l generalizing i with
  | nil => simp [setTrueAt]
  | cons st rest ih =>
    cases i with
    | zero => simp [setTrueAt]
    | succ n => simp [setTrueAt, ih]

theorem setTrueAt_get? (l : List AseaStackInfo) (i j : Nat) :
    (setTrueAt l i).get? j =
      if i = j then (l.get? j).map (fun st => { st with nestedStack := true })
      else l.get? j := by
  induction l generalizing i j with
  | nil => cases i <;> cases j <;> simp [setTrueAt]
  | cons st rest ih =>
    cases i with
    | zero =>
      cases j with
      | zero => simp [setTrueAt]
      | succ m =>
        show (setTrueAt (st :: rest) 0).get? (m + 1) = _
        rw [if_neg (by omega)]
        rfl
    | succ n =>
      cases j with
      | zero =>
        rw [if_neg (by omega)]
        rfl
      | succ m =>
        show (setTrueAt rest n).get? m = _
        rw [ih n m]
        by_cases h : n = m
        · subst h
          rw [if_pos rfl, if_pos rfl]
          rfl
        · rw [if_neg h, if_neg (by omega)]
          rfl

theorem matchesNested_of_name (pid : String) (st st' : AseaStackInfo)
    (h : st.stackName = st'.stackName) :
    matchesNested pid st = matchesNested pid st' := by
  simp [matchesNested, h]

theorem jsFindIndex_congr_names (pid : String) (l l' : List AseaStackInfo)
    (h : stackNames l = stackNames l') :
    jsFindIndex (fun st => matchesNested pid st) l =
      jsFindIndex (fun st => matchesNested pid st) l' := by
  induction l generalizing l' with
  | nil =>
    cases l' with
    | nil => rfl
    | cons _ _ => simp [stackNames] at h
  | cons st rest ih =>
    cases l' with
    | nil => simp [stackNames] at h
    | cons st' rest' =>
      simp only [stackNames, List.map_cons, List.cons.injEq] at h
      have hm := matchesNested_of_name pid st st' h.1
      simp only [jsFindIndex, hm, ih rest' h.2]

theorem jsFindIndex_get? (p : AseaStackInfo → Bool) (l : List AseaStackInfo) (i : Nat)
    (h : jsFindIndex p l = some i) :
    ∃ st, l.get? i = some st ∧ p st = true := by
  induction l generalizing i with
  | nil => simp [jsFindIndex] at h
  | cons st rest ih =>
    by_cases hp : p st
    · simp only [jsFindIndex, hp, if_true, Option.some.injEq] at h
      subst h
      exact ⟨st, rfl, hp⟩
    · simp only [jsFindIndex, hp, if_false, Bool.false_eq_true] at h
      cases hfi : jsFindIndex p rest with
      | none => rw [hfi] at h; simp at h
      | some i' =>
        rw [hfi] at h
        simp only [Option.map_some', Option.some.injEq] at h
        subst h
        obtain ⟨st', h1, h2⟩ := ih i' hfi
        exact ⟨st', h1, h2⟩

theorem markStep_length (l : List AseaStackInfo) (pid : String) :
    (markStep l pid).length = l.length := by
  unfold markStep
  cases jsFindIndex (fun st => matchesNested pid st) l with
  | none => rfl
  | some i => simp [setTrueAt_length]

theorem markStep_get?_some (l : List AseaStackInfo) (pid : String) (j : Nat)
    (st : AseaStackInfo) (h : l.get? j = some st) :
    ∃ b : Bool, (markStep l pid).get? j =
      some { st with nestedStack := st.nestedStack || b } := by
  obtain ⟨a1, a2, a3, a4, a5, a6, a7, a8⟩ := st
  unfold markStep
  cases hfi : jsFindIndex (fun st => matchesNested pid st) l with
  | none =>
    refine ⟨false, ?_⟩
    rw [h]
    simp
  | some i =>
    by_cases hij : i = j
    · refine ⟨true, ?_⟩
      rw [setTrueAt_get?, if_pos hij, h]
      simp
    · refine ⟨false, ?_⟩
      rw [setTrueAt_get?, if_neg hij, h]
      simp

theorem markStep_names (l : List AseaStackInfo) (pid : String) :
    stackNames (markStep l pid) = stackNames l := by
  unfold markStep
  cases hfi : jsFindIndex (fun st => matchesNested pid st) l with
  | none => rfl
  | some i =>
    apply List.ext_get?
    intro j
    simp only [stackNames, List.get?_map, setTrueAt_get?]
    by_cases hij : i = j
    · subst hij
      cases l.get? i <;> simp
    · simp [hij]

theorem markNested_get?_some (ids : List String) (l : List AseaStackInfo) (j : Nat)
    (st : AseaStackInfo) (h : l.get? j = some st) :
    ∃ b : Bool, (markNested l ids).get? j =
      some { st with nestedStack := st.nestedStack || b } := by
  induction ids generalizing l st with
  | nil =>
    obtain ⟨a1, a2, a3, a4, a5, a6, a7, a8⟩ := st
    refine ⟨false, ?_⟩
    show l.get? j = _
    rw [h]
    simp
  | cons pid rest ih =>
    obtain ⟨b0, h0⟩ := markStep_get?_some l pid j st h
    obtain ⟨b1, h1⟩ := ih (markStep l pid) _ h0
    refine ⟨b0 || b1, ?_⟩
    rw [markNested_cons, h1]
    obtain ⟨a1, a2, a3, a4, a5, a6, a7, a8⟩ := st
    simp [Bool.or_assoc]

theorem markNested_names (ids : List String) (l : List AseaStackInfo) :
    stackNames (markNested l ids) = stackNames l := by
  induction ids generalizing l with
  | nil => rfl
  | cons pid rest ih =>
    rw [markNested_cons, ih (markStep l pid), markStep_names]

theorem markNested_length (ids : List String) (l : List AseaStackInfo) :
    (markNested l ids).length = l.length := by
  have h := congrArg List.length (markNested_names ids l)
  simpa [stackNames] using h

theorem markNested_marks (ids : List String) (l : List AseaStackInfo) (pid : String)
    (hpid : pid ∈ ids) (i : Nat)
    (hfind : jsFindIndex (fun st => matchesNested pid st) l = some i) :
    ∃ st, (markNested l ids).get? i = some st ∧ st.nestedStack = true := by
  induction ids generalizing l with
  | nil => cases hpid
  | cons id0 rest ih =>
    rw [markNested_cons]
    rcases List.mem_cons.mp hpid with heq | hmem
    · subst heq
      obtain ⟨st0, hget, _⟩ := jsFindIndex_get? _ l i hfind
      have hstep : (markStep l pid).get? i =
          some { st0 with nestedStack := true } := by
        unfold markStep
        rw [hfind, setTrueAt_get?, if_pos rfl, hget]
        rfl
      obtain ⟨b, hb⟩ := markNested_get?_some rest (markStep l pid) i _ hstep
      refine ⟨_, hb, by simp⟩
    · have hnames := markStep_names l id0
      have hfind' : jsFindIndex (fun st => matchesNested pid st) (markStep l id0) = some i := by
        rw [jsFindIndex_congr_names pid _ l hnames, hfind]
      exact ih (markStep l id0) hmem hfind'

/-- The unmarked stack descriptors of all accounts, in push order. -/
def allProcessed (accs : List MappingAccount) : List AseaStackInfo :=
  (accs.map processAccount).flatten

theorem allProcessed_nil : allProcessed [] = [] := rfl

theorem allProcessed_cons (a : MappingAccount) (rest : List MappingAccount) :
    allProcessed (a :: rest) = processAccount a ++ allProcessed rest := by
  simp [allProcessed]

theorem setTemplateMapGo_cons (a : MappingAccount) (rest : List MappingAccount)
    (accts : List String) (l : List AseaStackInfo) :
    setTemplateMapGo (a :: rest) (accts, l) =
      setTemplateMapGo rest (accts ++ [a.accountId],
        markNested (l ++ processAccount a) (collectNestedIds a.stacksAndResourceMapList)) := rfl

theorem get?_some_lt {α : Type} (L : List α) (n : Nat) (a : α) (h : L.get? n = some a) :
    n < L.length := by
  by_contra hcon
  push_neg at hcon
  rw [List.get?_eq_none.mpr hcon] at h
  cases h

/-- Entries of the accumulated list are only ever marked, never otherwise
changed, by the remaining account iterations. -/
theorem setTemplateMapGo_get?_some (accs : List MappingAccount) (accts : List String)
    (l : List AseaStackInfo) (j : Nat) (st : AseaStackInfo)
    (h : (l ++ allProcessed accs).get? j = some st) :
    ∃ b : Bool, (setTemplateMapGo accs (accts, l)).2.get? j =
      some { st with nestedStack := st.nestedStack || b } := by
  induction accs generalizing accts l st with
  | nil =>
    obtain ⟨a1, a2, a3, a4, a5, a6, a7, a8⟩ := st
    refine ⟨false, ?_⟩
    show l.get? j = _
    rw [allProcessed_nil, List.append_nil] at h
    rw [h]
    simp
  | cons a rest ih =>
    rw [setTemplateMapGo_cons]
    rw [allProcessed_cons, ← List.append_assoc] at h
    set l1 := l ++ processAccount a with hl1
    set ids := collectNestedIds a.stacksAndResourceMapList with hids
    by_cases hj : j < l1.length
    · have h1 : l1.get? j = some st := by
        rw [← h]
        exact (List.get?_append hj).symm
      obtain ⟨b0, hb0⟩ := markNested_get?_some ids l1 j st h1
      have h2 : (markNested l1 ids ++ allProcessed rest).get? j =
          some { st with nestedStack := st.nestedStack || b0 } := by
        rw [List.get?_append (by rw [markNested_length]; exact hj)]
        exact hb0
      obtain ⟨b1, hb1⟩ := ih (accts ++ [a.accountId]) (markNested l1 ids) _ h2
      refine ⟨b0 || b1, ?_⟩
      rw [hb1]
      obtain ⟨a1, a2, a3, a4, a5, a6, a7, a8⟩ := st
      simp [Bool.or_assoc]
    · have h1 : (markNested l1 ids ++ allProcessed rest).get? j = some st := by
        rw [List.get?_append_right (by rw [markNested_length]; omega),
            markNested_length]
        rw [List.get?_append_right (by omega)] at h
        exact h
      exact ih (accts ++ [a.accountId]) (markNested l1 ids) st h1

/-- For each physical id collected while processing account `k`, the first
stack in the accumulated descriptor list (accounts `0..k`) whose name
occurs in it ends up marked as nested in the final output. -/
theorem setTemplateMapGo_marks (accs : List MappingAccount) (accts : List String)
    (l : List AseaStackInfo) (k : Nat) (hk : k < accs.length) (pid : String)
    (hpid : pid ∈ collectNestedIds (accs.get ⟨k, hk⟩).stacksAndResourceMapList)
    (i : Nat)
    (hfind : jsFindIndex (fun st => matchesNested pid st)
      (l ++ allProcessed (accs.take (k + 1))) = some i) :
    ∃ st, (setTemplateMapGo accs (accts, l)).2.get? i = some st ∧
      st.nestedStack = true := by
  induction accs generalizing accts l k with
  | nil => exact absurd hk (by simp)
  | cons a rest ih =>
    rw [setTemplateMapGo_cons]
    set l1 := l ++ processAccount a with hl1
    set ids := collectNestedIds a.stacksAndResourceMapList with hids
    cases k with
    | zero =>
      have hfind1 : jsFindIndex (fun st => matchesNested pid st) l1 = some i := by
        have heq : l ++ allProcessed (List.take (0 + 1) (a :: rest)) = l1 := by
          simp [hl1, List.take_succ_cons, allProcessed_cons, allProcessed_nil]
        rwa [heq] at hfind
      have hpid1 : pid ∈ ids := hpid
      obtain ⟨st0, hm, hn⟩ := markNested_marks ids l1 pid hpid1 i hfind1
      have hi : i < (markNested l1 ids).length := get?_some_lt _ i st0 hm
      have h2 : (markNested l1 ids ++ allProcessed rest).get? i = some st0 := by
        rw [List.get?_append hi]
        exact hm
      obtain ⟨b, hb⟩ := setTemplateMapGo_get?_some rest (accts ++ [a.accountId])
        (markNested l1 ids) i st0 h2
      exact ⟨_, hb, by simp [hn]⟩
    | succ k' =>
      have hk' : k' < rest.length := by simpa using hk
      have hpid' : pid ∈ collectNestedIds (rest.get ⟨k', hk'⟩).stacksAndResourceMapList := hpid
      have hfind' : jsFindIndex (fun st => matchesNested pid st)
          (markNested l1 ids ++ allProcessed (rest.take (k' + 1))) = some i := by
        rw [jsFindIndex_congr_names pid _
          (l1 ++ allProcessed (rest.take (k' + 1)))
          (by rw [stackNames_append, stackNames_append, markNested_names])]
        have heq : l ++ allProcessed (List.take (k' + 1 + 1) (a :: rest)) =
            l1 ++ allProcessed (rest.take (k' + 1)) := by
          simp [hl1, List.take_succ_cons, allProcessed_cons, List.append_assoc]
        rwa [heq] at hfind
      exact ih (accts ++ [a.accountId]) (markNested l1 ids) k' hk' hpid' hfind'

/-- A sample parsed document used by concrete witnesses. -/
def vSample : GCValues :=
  { homeRegion := "us-east-1"
    enabledRegions := ["us-east-1", "us-west-2"]
    managementAccountAccessRole := "OrganizationAccountAccessRole"
    cloudwatchLogRetentionInDays := 365
    terminationProtection := some false
    controlTower := { enable := false, controls := none }
    centralizeCdkBuckets := none
    cdkOptions := none
    externalLandingZoneResources := none
    logging := defaultLogging
    reports := none
    backup := none
    snsTopics := none
    ssmInventory := none
    tags := none
    ssmParameters := none
    limits := none
    acceleratorMetadata := none
    acceleratorSettings := none }

/-- C1: on every valid parsed document, `load`, `loadFromString` and
`fromObject` all succeed and the resulting config's required top-level
fields (`homeRegion`, `managementAccountAccessRole`,
`controlTower.enable`) equal the document's fields exactly; with the
schema's non-empty-string requirement on the two string fields they are
populated (non-empty) on every successful construction. -/
theorem claim1_requiredFieldsExact (v : GCValues)
    (hhr : v.homeRegion ≠ "") (hrole : v.managementAccountAccessRole ≠ "") :
    ∃ c1 c2 c3,
      GlobalConfig.load (.ok v) = .ok c1 ∧
      GlobalConfig.loadFromString (.ok v) = .ok c2 ∧
      GlobalConfig.fromObject (.ok v) = .ok c3 ∧
      (c1.homeRegion = v.homeRegion ∧
        c1.managementAccountAccessRole = v.managementAccountAccessRole ∧
        c1.controlTower.enable = v.controlTower.enable) ∧
      (c2.homeRegion = v.homeRegion ∧
        c2.managementAccountAccessRole = v.managementAccountAccessRole ∧
        c2.controlTower.enable = v.controlTower.enable) ∧
      (c3.homeRegion = v.homeRegion ∧
        c3.managementAccountAccessRole = v.managementAccountAccessRole ∧
        c3.controlTower.enable = v.controlTower.enable) ∧
      (c1.homeRegion ≠ "" ∧ c1.managementAccountAccessRole ≠ "") ∧
      (c2.homeRegion ≠ "" ∧ c2.managementAccountAccessRole ≠ "") ∧
      (c3.homeRegion ≠ "" ∧ c3.managementAccountAccessRole ≠ "") :=
  ⟨_, _, _, rfl, rfl, rfl,
    ⟨rfl, rfl, rfl⟩, ⟨rfl, rfl, rfl⟩, ⟨rfl, rfl, rfl⟩,
    ⟨hhr, hrole⟩, ⟨hhr, hrole⟩, ⟨hhr, hrole⟩⟩

theorem claim1_requiredFieldsExact_witness :
    vSample.homeRegion ≠ "" ∧ vSample.managementAccountAccessRole ≠ "" ∧
    ∃ c1 c2 c3,
      GlobalConfig.load (.ok vSample) = .ok c1 ∧
      GlobalConfig.loadFromString (.ok vSample) = .ok c2 ∧
      GlobalConfig.fromObject (.ok vSample) = .ok c3 ∧
      (c1.homeRegion = vSample.homeRegion ∧
        c1.managementAccountAccessRole = vSample.managementAccountAccessRole ∧
        c1.controlTower.enable = vSample.controlTower.enable) ∧
      (c2.homeRegion = vSample.homeRegion ∧
        c2.managementAccountAccessRole = vSample.managementAccountAccessRole ∧
        c2.controlTower.enable = vSample.controlTower.enable) ∧
      (c3.homeRegion = vSample.homeRegion ∧
        c3.managementAccountAccessRole = vSample.managementAccountAccessRole ∧
        c3.controlTower.enable = vSample.controlTower.enable) ∧
      (c1.homeRegion ≠ "" ∧ c1.managementAccountAccessRole ≠ "") ∧
      (c2.homeRegion ≠ "" ∧ c2.managementAccountAccessRole ≠ "") ∧
      (c3.homeRegion ≠ "" ∧ c3.managementAccountAccessRole ≠ "") :=
  ⟨by decide, by decide,
    claim1_requiredFieldsExact vSample (by decide) (by decide)⟩

/-- C6: `loadFromString` never yields a value on a failed parse: every
parse/validation failure is replaced by the one generic load error, whose
message does not carry the original detail; a value is returned only on
the happy path. -/
theorem claim6_loadFromStringGenericError :
    (∀ e : String,
      GlobalConfig.loadFromString (.error e) = .error "Could not load global configuration") ∧
    (∀ v : GCValues, ∃ c, GlobalConfig.loadFromString (.ok v) = .ok c) :=
  ⟨fun _ => rfl, fun _ => ⟨_, rfl⟩⟩

/-- A parsed document whose `homeRegion` is not in `enabledRegions`
(the schema does not relate the two fields). -/
def vBadRegion : GCValues :=
  { vSample with homeRegion := "us-east-1", enabledRegions := ["us-west-2"] }

def cfgBadRegion : GlobalConfig :=
  objectAssign GlobalConfig.classDefault vBadRegion

/-- C7 fails on `fromObject`/`load`: a schema-valid document whose
`homeRegion` is absent from `enabledRegions` loads successfully into a
config violating the invariant. -/
theorem claim7_homeRegionInEnabled_counterexample :
    GlobalConfig.fromObject (.ok vBadRegion) = .ok cfgBadRegion ∧
    GlobalConfig.load (.ok vBadRegion) = .ok cfgBadRegion ∧
    ¬ cfgBadRegion.homeRegion ∈ cfgBadRegion.enabledRegions :=
  ⟨rfl, rfl, by decide⟩

/-- C7 (amended): `homeRegion ∈ enabledRegions` always holds for configs
built by `loadFromString` (which sets `enabledRegions = [homeRegion]`);
for `load` and `fromObject` it holds exactly when the input document
itself satisfies it — the schema does not enforce the invariant. -/
theorem claim7_homeRegionInEnabled_amended :
    (∀ (v : GCValues) (c : GlobalConfig),
      GlobalConfig.loadFromString (.ok v) = .ok c → c.homeRegion ∈ c.enabledRegions) ∧
    (∀ (v : GCValues) (c : GlobalConfig),
      GlobalConfig.load (.ok v) = .ok c →
        (c.homeRegion ∈ c.enabledRegions ↔ v.homeRegion ∈ v.enabledRegions)) ∧
    (∀ (v : GCValues) (c : GlobalConfig),
      GlobalConfig.fromObject (.ok v) = .ok c →
        (c.homeRegion ∈ c.enabledRegions ↔ v.homeRegion ∈ v.enabledRegions)) := by
  refine ⟨?_, ?_, ?_⟩
  · intro v c h
    obtain rfl : constructGlobalConfig
        { homeRegion := v.homeRegion, controlTower := v.controlTower,
          managementAccountAccessRole := v.managementAccountAccessRole } none = c :=
      Except.ok.inj h
    simp [constructGlobalConfig]
  · intro v c h
    obtain rfl : constructGlobalConfig
        { homeRegion := v.homeRegion, controlTower := v.controlTower,
          managementAccountAccessRole := v.managementAccountAccessRole } (some v) = c :=
      Except.ok.inj h
    simp [constructGlobalConfig, objectAssign]
  · intro v c h
    obtain rfl : constructGlobalConfig
        { homeRegion := v.homeRegion, controlTower := v.controlTower,
          managementAccountAccessRole := v.managementAccountAccessRole } (some v) = c :=
      Except.ok.inj h
    simp [constructGlobalConfig, objectAssign]

def cfgSampleLfs : GlobalConfig :=
  constructGlobalConfig
    { homeRegion := vSample.homeRegion, controlTower := vSample.controlTower,
      managementAccountAccessRole := vSample.managementAccountAccessRole } none

theorem claim7_homeRegionInEnabled_amended_witness :
    cfgSampleLfs.homeRegion ∈ cfgSampleLfs.enabledRegions ∧
    (cfgBadRegion.homeRegion ∈ cfgBadRegion.enabledRegions ↔
      vBadRegion.homeRegion ∈ vBadRegion.enabledRegions) :=
  ⟨claim7_homeRegionInEnabled_amended.1 vSample cfgSampleLfs rfl,
   claim7_homeRegionInEnabled_amended.2.2 vBadRegion cfgBadRegion rfl⟩

/-- C10: `loadFromString` passes the parsed values only as the
constructor's `props` argument, so the `Object.assign` overlay never runs:
the result has `enabledRegions = [homeRegion]`, an empty
`controlTower.controls`, and every other section at its class default,
regardless of the document's contents. -/
theorem claim10_loadFromStringIgnoresDocument (v : GCValues) :
    ∃ c, GlobalConfig.loadFromString (.ok v) = .ok c ∧
      c.enabledRegions = [v.homeRegion] ∧
      c.controlTower.controls = some [] ∧
      c.centralizeCdkBuckets = none ∧
      c.externalLandingZoneResources = none ∧
      c.reports = none ∧
      c.backup = none ∧
      c.snsTopics = none ∧
      c.ssmInventory = none ∧
      c.ssmParameters = none ∧
      c.limits = none ∧
      c.acceleratorMetadata = none ∧
      c.acceleratorSettings = none ∧
      c.cdkOptions = defaultCdkOptions ∧
      c.logging = defaultLogging ∧
      c.terminationProtection = true ∧
      c.cloudwatchLogRetentionInDays = 3653 ∧
      c.tags = [] ∧
      c.homeRegion = v.homeRegion ∧
      c.managementAccountAccessRole = v.managementAccountAccessRole :=
  ⟨_, rfl, rfl, rfl, rfl, rfl, rfl, rfl, rfl, rfl, rfl, rfl, rfl, rfl, rfl,
    rfl, rfl, rfl, rfl, rfl, rfl⟩

def stackA : MappingStack :=
  { stackName := "A", region := "us-east-1", template := "tplA",
    resourceMap := [{ logicalResourceId := "Nested1",
                      physicalResourceId := "x:stack/A/:stack/B/x",
                      resourceType := "AWS::CloudFormation::Stack" }],
    parentStack := none }

def stackB : MappingStack :=
  { stackName := "B", region := "us-east-1", template := "tplB",
    resourceMap := [], parentStack := none }

def mappingTwoMatches : List MappingAccount :=
  [{ accountId := "111111111111", accountKey := "management",
     stacksAndResourceMapList := [stackA, stackB] }]

/-- C9 fails as stated: in `mappingTwoMatches` the single collected
physical id contains both stack names, but `findIndex` marks only the
first match, leaving stack `B` unmarked even though its name appears
inside the collected identifier. -/
theorem claim9_nestedMarking_counterexample :
    "x:stack/A/:stack/B/x" ∈ collectNestedIds [stackA, stackB] ∧
    jsIncludes "x:stack/A/:stack/B/x" (":stack/B/") = true ∧
    (setTemplateMap mappingTwoMatches).2.map
      (fun s => (s.stackName, s.nestedStack)) = [("A", true), ("B", false)] := by
  refine ⟨by decide, by decide, by decide⟩

/-- C9 (amended): after `setTemplateMap`, (1) every descriptor whose
source stack had a `parentStack` field is marked nested (its initial
`nestedStack` flag survives the marking passes), and (2) for every account
`k` and every physical id collected from its resources, the FIRST
descriptor (in the accumulated list of accounts `0..k`) whose stack name
appears inside that id is marked nested — later matches of the same id
are not touched by that id. -/
theorem claim9_nestedMarking_amended :
    (∀ (mapping : List MappingAccount) (j : Nat) (st : AseaStackInfo),
      (allProcessed mapping).get? j = some st → st.nestedStack = true →
      ∃ st', (setTemplateMap mapping).2.get? j = some st' ∧ st'.nestedStack = true) ∧
    (∀ (mapping : List MappingAccount) (k : Nat) (hk : k < mapping.length)
      (pid : String),
      pid ∈ collectNestedIds (mapping.get ⟨k, hk⟩).stacksAndResourceMapList →
      ∀ i : Nat, jsFindIndex (fun st => matchesNested pid st)
          (allProcessed (mapping.take (k + 1))) = some i →
      ∃ st, (setTemplateMap mapping).2.get? i = some st ∧ st.nestedStack = true) := by
  constructor
  · intro mapping j st h hn
    obtain ⟨b, hb⟩ := setTemplateMapGo_get?_some mapping [] [] j st (by simpa using h)
    exact ⟨_, hb, by simp [hn]⟩
  · intro mapping k hk pid hpid i hfind
    exact setTemplateMapGo_marks mapping [] [] k hk pid hpid i (by simpa using hfind)

def stackC : MappingStack :=
  { stackName := "C", region := "us-east-1", template := "tplC",
    resourceMap := [], parentStack := some "ParentOfC" }

def mappingParent : List MappingAccount :=
  [{ accountId := "222222222222", accountKey := "child",
     stacksAndResourceMapList := [stackC] }]

theorem claim9_nestedMarking_amended_witness :
    (∃ st', (setTemplateMap mappingParent).2.get? 0 = some st' ∧
      st'.nestedStack = true) ∧
    (∃ st, (setTemplateMap mappingTwoMatches).2.get? 0 = some st ∧
      st.nestedStack = true) :=
  ⟨claim9_nestedMarking_amended.1 mappingParent 0
      (processStack "222222222222" "child" stackC) (by decide) (by decide),
   claim9_nestedMarking_amended.2 mappingTwoMatches 0 (by decide)
      "x:stack/A/:stack/B/x" (by decide) 0 (by decide)⟩

/-- C2: with import enabled, `loadFromCache = true` and the cached mapping
file present, `loadExternalMapping` loads the template map and resource
list from the local disk cache and performs no S3 call (the list of
fetched S3 keys is empty). -/
theorem claim2_cacheShortCircuit (e : ElzResources) (env : ExtMappingEnv)
    (himp : e.importExternalLandingZoneResources = true)
    (hcache : env.cacheFileExists = true) :
    loadExternalMapping (some e) true env =
      .ok (some { e with
        accountsDeployedExternally := (setTemplateMap env.diskMapping).1
        templateMap := (setTemplateMap env.diskMapping).2
        resourceList := env.diskResourceList }, []) := by
  simp [loadExternalMapping, himp, hcache]

def elzSample : ElzResources :=
  { importExternalLandingZoneResources := true
    mappingFileBucket := some "asea-mapping-bucket"
    acceleratorPrefix := "ASEA"
    acceleratorName := "ASEA" }

def envCacheHit : ExtMappingEnv :=
  { cacheFileExists := true
    diskMapping := mappingTwoMatches
    diskResourceList := [{ resourceType := "AWS::IAM::Role", resourceIdentifier := "r1" }]
    s3Mapping := .otherError "network down"
    s3ResourceList := .otherError "network down" }

theorem claim2_cacheShortCircuit_witness :
    loadExternalMapping (some elzSample) true envCacheHit =
      .ok (some { elzSample with
        accountsDeployedExternally := (setTemplateMap envCacheHit.diskMapping).1
        templateMap := (setTemplateMap envCacheHit.diskMapping).2
        resourceList := envCacheHit.diskResourceList }, []) :=
  claim2_cacheShortCircuit elzSample envCacheHit rfl rfl

/-- C8: on the remote fetch path (import enabled, bucket configured), a
`NoSuchKey` result is absorbed into an empty result only for the
resource-list fetch (`aseaResources.json` yields `[]`); a missing
(`NoSuchKey`) or empty-bodied `mapping.json` is fatal, and any other
object-storage error on either fetch propagates and fails the call. -/
theorem claim8_remoteFetchErrorPolicy (e : ElzResources) (env : ExtMappingEnv)
    (b : String)
    (himp : e.importExternalLandingZoneResources = true)
    (hbucket : e.mappingFileBucket = some b) :
    (∀ m, env.s3Mapping = .okBody m → env.s3ResourceList = .noSuchKey →
      loadExternalMapping (some e) false env =
        .ok (some { e with
          accountsDeployedExternally := (setTemplateMap m).1
          templateMap := (setTemplateMap m).2
          resourceList := [] }, ["mapping.json", "aseaResources.json"])) ∧
    (env.s3Mapping = .noSuchKey →
      loadExternalMapping (some e) false env = .error "NoSuchKey") ∧
    (env.s3Mapping = .emptyBody →
      loadExternalMapping (some e) false env = .error "Runtime error") ∧
    (∀ msg, env.s3Mapping = .otherError msg →
      loadExternalMapping (some e) false env = .error msg) ∧
    (∀ m msg, env.s3Mapping = .okBody m → env.s3ResourceList = .otherError msg →
      loadExternalMapping (some e) false env = .error msg) := by
  refine ⟨?_, ?_, ?_, ?_, ?_⟩
  · intro m hm hres
    simp [loadExternalMapping, loadExternalMappingFromS3, readJsonFromExternalS3,
      himp, hbucket, hm, hres]
  · intro hm
    simp [loadExternalMapping, loadExternalMappingFromS3, himp, hbucket, hm]
  · intro hm
    simp [loadExternalMapping, loadExternalMappingFromS3, himp, hbucket, hm]
  · intro msg hm
    simp [loadExternalMapping, loadExternalMappingFromS3, himp, hbucket, hm]
  · intro m msg hm hres
    simp [loadExternalMapping, loadExternalMappingFromS3, readJsonFromExternalS3,
      himp, hbucket, hm, hres]

def envMappingMissing : ExtMappingEnv :=
  { cacheFileExists := false
    diskMapping := []
    diskResourceList := []
    s3Mapping := .noSuchKey
    s3ResourceList := .noSuchKey }

def envResourcesMissing : ExtMappingEnv :=
  { cacheFileExists := false
    diskMapping := []
    diskResourceList := []
    s3Mapping := .okBody mappingTwoMatches
    s3ResourceList := .noSuchKey }

theorem claim8_remoteFetchErrorPolicy_witness :
    loadExternalMapping (some elzSample) false envResourcesMissing =
      .ok (some { elzSample with
        accountsDeployedExternally := (setTemplateMap mappingTwoMatches).1
        templateMap := (setTemplateMap mappingTwoMatches).2
        resourceList := [] }, ["mapping.json", "aseaResources.json"]) ∧
    loadExternalMapping (some elzSample) false envMappingMissing =
      .error "NoSuchKey" :=
  ⟨(claim8_remoteFetchErrorPolicy elzSample envResourcesMissing
      "asea-mapping-bucket" rfl rfl).1 mappingTwoMatches rfl rfl,
   (claim8_remoteFetchErrorPolicy elzSample envMappingMissing
      "asea-mapping-bucket" rfl rfl).2.1 rfl⟩

/-- Whether a region task fails does not depend on the dictionary it
threads (errors come only from credential assumption). -/
theorem loadRegionLzaResources_fst_const (env : LzaEnv) (pfx region : String)
    (accounts : List String) (rp rp' : List (String × StrMap)) :
    (loadRegionLzaResources env pfx region accounts rp).1 =
      (loadRegionLzaResources env pfx region accounts rp').1 := by
  induction accounts generalizing rp rp' with
  | nil => rfl
  | cons a rest ih =>
    simp only [loadRegionLzaResources]
    cases env.credentials a region with
    | none => exact ih _ _
    | some err => rfl

/-- A key present in the threaded dictionary stays present through a
region task. -/
theorem loadRegionLzaResources_preserves (env : LzaEnv) (pfx region : String)
    (accounts : List String) (rp : List (String × StrMap)) (k : String)
    (h : (lookupEntry rp k).isSome = true) :
    (lookupEntry (loadRegionLzaResources env pfx region accounts rp).2 k).isSome = true := by
  induction accounts generalizing rp with
  | nil => exact h
  | cons a rest ih =>
    simp only [loadRegionLzaResources]
    cases env.credentials a region with
    | some err => exact h
    | none =>
      apply ih
      rw [lookupEntry_setEntry]
      by_cases hk : a ++ "-" ++ region = k <;> simp [hk, h]

/-- The accounts of a region whose reconciliation completes before the
region task's first credential failure. -/
def completedAccounts (env : LzaEnv) (region : String) : List String → List String
  | [] => []
  | a :: rest =>
    match env.credentials a region with
    | some _ => []
    | none => a :: completedAccounts env region rest

/-- Every completed account's `accountId-region` entry is present in the
dictionary the region task returns — even when the task itself fails
later. -/
theorem loadRegionLzaResources_commits (env : LzaEnv) (pfx region : String)
    (accounts : List String) (rp : List (String × StrMap)) (a : String)
    (ha : a ∈ completedAccounts env region accounts) :
    (lookupEntry (loadRegionLzaResources env pfx region accounts rp).2
      (a ++ "-" ++ region)).isSome = true := by
  induction accounts generalizing rp with
  | nil => cases ha
  | cons a0 rest ih =>
    simp only [loadRegionLzaResources]
    cases hc : env.credentials a0 region with
    | some err =>
      rw [completedAccounts, hc] at ha
      cases ha
    | none =>
      rw [completedAccounts, hc] at ha
      rcases List.mem_cons.mp ha with heq | hmem
      · subst heq
        apply loadRegionLzaResources_preserves
        rw [lookupEntry_setEntry, if_pos rfl]
        rfl
      · exact ih _ hmem

/-- The per-region fan-out step of `loadLzaResources`. -/
def lzaStep (env : LzaEnv) (pfx : String) (accounts : List String)
    (acc : Option String × List (String × StrMap)) (region : String) :
    Option String × List (String × StrMap) :=
  let r := loadRegionLzaResources env pfx region accounts acc.2
  (match acc.1 with | some m => some m | none => r.1, r.2)

def resourceParamsOf (c : GlobalConfig) : Option (List (String × StrMap)) :=
  c.externalLandingZoneResources.bind (fun e => e.resourceParameters)

theorem loadLzaResources_spec (cfg : GlobalConfig) (env : LzaEnv)
    (partition pfx : String) (e : ElzResources)
    (h : cfg.externalLandingZoneResources = some e)
    (himp : e.importExternalLandingZoneResources = true) :
    (loadLzaResources cfg env partition pfx).1 =
      (cfg.enabledRegions.foldl (lzaStep env pfx e.accountsDeployedExternally)
        (none, e.resourceParameters.getD [])).1 ∧
    resourceParamsOf ((loadLzaResources cfg env partition pfx).2) =
      some (cfg.enabledRegions.foldl (lzaStep env pfx e.accountsDeployedExternally)
        (none, e.resourceParameters.getD [])).2 := by
  constructor <;> simp [loadLzaResources, h, himp, resourceParamsOf] <;> rfl

theorem lzaFold_fst (env : LzaEnv) (pfx : String) (accounts : List String)
    (regions : List String) (err0 : Option String) (rp : List (String × StrMap)) :
    (regions.foldl (lzaStep env pfx accounts) (err0, rp)).1.isSome = true ↔
      err0.isSome = true ∨ ∃ region ∈ regions,
        (loadRegionLzaResources env pfx region accounts []).1.isSome = true := by
  induction regions generalizing err0 rp with
  | nil => simp
  | cons r rest ih =>
    rw [List.foldl_cons]
    cases err0 with
    | some m =>
      have hstep : lzaStep env pfx accounts (some m, rp) r =
          (some m, (loadRegionLzaResources env pfx r accounts rp).2) := rfl
      rw [hstep, ih]
      simp
    | none =>
      have hstep : lzaStep env pfx accounts (none, rp) r =
          ((loadRegionLzaResources env pfx r accounts rp).1,
            (loadRegionLzaResources env pfx r accounts rp).2) := rfl
      rw [hstep, ih]
      rw [loadRegionLzaResources_fst_const env pfx r accounts rp []]
      constructor
      · rintro (hf | ⟨reg, hreg, hfail⟩)
        · exact Or.inr ⟨r, List.mem_cons_self r rest, hf⟩
        · exact Or.inr ⟨reg, List.mem_cons_of_mem r hreg, hfail⟩
      · rintro (h0 | ⟨reg, hreg, hfail⟩)
        · simp at h0
        · rcases List.mem_cons.mp hreg with heq | hmem
          · subst heq; exact Or.inl hfail
          · exact Or.inr ⟨reg, hmem, hfail⟩

theorem lzaFold_preserves (env : LzaEnv) (pfx : String) (accounts : List String)
    (regions : List String) (acc : Option String × List (String × StrMap)) (k : String)
    (h : (lookupEntry acc.2 k).isSome = true) :
    (lookupEntry (regions.foldl (lzaStep env pfx accounts) acc).2 k).isSome = true := by
  induction regions generalizing acc with
  | nil => exact h
  | cons r rest ih =>
    rw [List.foldl_cons]
    exact ih _ (loadRegionLzaResources_preserves env pfx r accounts acc.2 k h)

theorem lzaFold_commits (env : LzaEnv) (pfx : String) (accounts : List String)
    (regions : List String) (acc : Option String × List (String × StrMap))
    (region : String) (hreg : region ∈ regions) (a : String)
    (ha : a ∈ completedAccounts env region accounts) :
    (lookupEntry (regions.foldl (lzaStep env pfx accounts) acc).2
      (a ++ "-" ++ region)).isSome = true := by
  induction regions generalizing acc with
  | nil => cases hreg
  | cons r rest ih =>
    rw [List.foldl_cons]
    rcases List.mem_cons.mp hreg with heq | hmem
    · subst heq
      apply lzaFold_preserves
      exact loadRegionLzaResources_commits env pfx region accounts acc.2 a ha
    · exact ih _ hmem

def elzPartial : ElzResources :=
  { elzSample with accountsDeployedExternally := ["111111111111"] }

def cfgPartial : GlobalConfig :=
  { GlobalConfig.classDefault with
    homeRegion := "us-east-1"
    enabledRegions := ["us-east-1", "us-west-2"]
    managementAccountAccessRole := "OrganizationAccountAccessRole"
    externalLandingZoneResources := some elzPartial }

def envPartial : LzaEnv :=
  { credentials := fun _ region => if region == "us-west-2" then some "AccessDenied" else none
    ssmPages := fun _ _ path => [{ Parameters := [(path ++ "/x", "v")], NextToken := none }] }

/-- C3 fails as stated: with two enabled regions of which the second
fails credential assumption, `loadLzaResources` fails as a whole, but the
first region's completed reconciliation is already committed to
`resourceParameters` — the state is not as it was before the call. -/
theorem claim3_noPartialCommit_counterexample :
    (loadLzaResources cfgPartial envPartial "aws" "ASEA").1 = some "AccessDenied" ∧
    resourceParamsOf cfgPartial = none ∧
    (resourceParamsOf ((loadLzaResources cfgPartial envPartial "aws" "ASEA").2)).elim
      false (fun rp => (lookupEntry rp "111111111111-us-east-1").isSome) = true := by
  refine ⟨by decide, by decide, by decide⟩

/-- C3 (amended): if any per-region reconciliation task of
`loadLzaResources` fails, the whole call fails (and only then);
however, partial state IS committed: every account/region pair whose
reconciliation completed before its region task's first failure has its
`accountId-region` entry present in `resourceParameters` after the
call. -/
theorem claim3_noPartialCommit_amended (cfg : GlobalConfig) (env : LzaEnv)
    (partition pfx : String) (e : ElzResources)
    (h : cfg.externalLandingZoneResources = some e)
    (himp : e.importExternalLandingZoneResources = true) :
    ((loadLzaResources cfg env partition pfx).1.isSome = true ↔
      ∃ region ∈ cfg.enabledRegions,
        (loadRegionLzaResources env pfx region
          e.accountsDeployedExternally []).1.isSome = true) ∧
    (∀ region ∈ cfg.enabledRegions,
      ∀ a ∈ completedAccounts env region e.accountsDeployedExternally,
      ∃ rp, resourceParamsOf ((loadLzaResources cfg env partition pfx).2) = some rp ∧
        (lookupEntry rp (a ++ "-" ++ region)).isSome = true) := by
  obtain ⟨h1, h2⟩ := loadLzaResources_spec cfg env partition pfx e h himp
  constructor
  · rw [h1]
    have hiff := lzaFold_fst env pfx e.accountsDeployedExternally cfg.enabledRegions
      none (e.resourceParameters.getD [])
    simpa using hiff
  · intro region hreg a ha
    exact ⟨_, h2, lzaFold_commits env pfx e.accountsDeployedExternally
      cfg.enabledRegions _ region hreg a ha⟩

theorem claim3_noPartialCommit_amended_witness :
    ((loadLzaResources cfgPartial envPartial "aws" "ASEA").1.isSome = true ↔
      ∃ region ∈ cfgPartial.enabledRegions,
        (loadRegionLzaResources envPartial "ASEA" region
          elzPartial.accountsDeployedExternally []).1.isSome = true) ∧
    (∃ rp, resourceParamsOf ((loadLzaResources cfgPartial envPartial "aws" "ASEA").2) = some rp ∧
      (lookupEntry rp ("111111111111" ++ "-" ++ "us-east-1")).isSome = true) :=
  ⟨(claim3_noPartialCommit_amended cfgPartial envPartial "aws" "ASEA"
      elzPartial rfl rfl).1,
   (claim3_noPartialCommit_amended cfgPartial envPartial "aws" "ASEA"
      elzPartial rfl rfl).2
      "us-east-1" (by decide) "111111111111" (by decide)⟩

end AseaGlobalConfig
